import Mathlib

/-!
Event pages: list filter, form handlers and cache invalidation.

A shallow embedding of the pure logic of `src/pages/EventsPage.jsx`,
`src/pages/EventPage.jsx` and `src/pages/AddEventPage.jsx`.

JavaScript strings are modelled as lists of characters.  The built-ins whose
result depends on the host (`String.prototype.toLowerCase`, `Date` parsing and
`Date.prototype.toISOString`) are parameters of the definitions that call
them; reference instances are given for evaluating concrete inputs.
-/

set_option autoImplicit false

/-- A JavaScript string value, as its sequence of characters. -/
abbrev JSString := List Char

/-- The record served by `GET /events`.  `image` and `organizerImage` may be
`null`; `extra` holds every other attribute the store attached. -/
structure Event where
  id : JSString
  title : JSString
  description : JSString
  image : Option JSString
  startTime : JSString
  endTime : JSString
  location : JSString
  categories : List JSString
  organizer : JSString
  organizerImage : Option JSString
  extra : List (JSString × JSString)
deriving DecidableEq, Repr

namespace JS

/-- `String.prototype.includes`: `search` occurs in `s` at some position. -/
def includes (s search : JSString) : Bool :=
  s.tails.any (fun rest => search.isPrefixOf rest)

/-- `WhiteSpace` and `LineTerminator` code points, the ones `trim` strips. -/
def isWhiteSpace (c : Char) : Bool :=
  c.toNat = 0x09 || c.toNat = 0x0A || c.toNat = 0x0B || c.toNat = 0x0C ||
  c.toNat = 0x0D || c.toNat = 0x20 || c.toNat = 0xA0 || c.toNat = 0x1680 ||
  (0x2000 ≤ c.toNat && c.toNat ≤ 0x200A) || c.toNat = 0x2028 ||
  c.toNat = 0x2029 || c.toNat = 0x202F || c.toNat = 0x205F ||
  c.toNat = 0x3000 || c.toNat = 0xFEFF

/-- `String.prototype.trim`. -/
def trim (s : JSString) : JSString :=
  ((s.dropWhile isWhiteSpace).reverse.dropWhile isWhiteSpace).reverse

/-- `String.prototype.split` with a one-character separator: the pieces
between the separators, so the empty string gives one empty piece. -/
def split (sep : Char) : JSString → List JSString
  | [] => [[]]
  | c :: cs =>
    if c = sep then [] :: split sep cs
    else
      match split sep cs with
      | [] => [[c]]
      | piece :: pieces => (c :: piece) :: pieces

/-- `Array.prototype.join` on strings. -/
def join (sep : JSString) : List JSString → JSString
  | [] => []
  | [s] => s
  | s :: rest => s ++ sep ++ join sep rest

/-- Truthiness of a string, as used by `filter(Boolean)`, `!s` and `s || x`. -/
def truthy (s : JSString) : Bool := !s.isEmpty

/-- A reference `toLowerCase` that folds the ASCII letters only. -/
def asciiToLowerCase (s : JSString) : JSString := s.map Char.toLower

/-- Value of a decimal digit. -/
def digit? (c : Char) : Option Nat :=
  if 48 ≤ c.toNat ∧ c.toNat ≤ 57 then some (c.toNat - 48) else none

/-- Value of a run of decimal digits read left to right, `acc` being the
value of the digits already read. -/
def digits? (acc : Nat) : JSString → Option Nat
  | [] => some acc
  | c :: cs =>
    match digit? c with
    | none => none
    | some d => digits? (acc * 10 + d) cs

/-- Number of days from 1970-01-01 to the given proleptic Gregorian date. -/
def daysFromCivil (year month day : Int) : Int :=
  let y := if month ≤ 2 then year - 1 else year
  let era := y / 400
  let yoe := y - era * 400
  let mp := if month > 2 then month - 3 else month + 9
  let doy := (153 * mp + 2) / 5 + day - 1
  let doe := yoe * 365 + yoe / 4 - yoe / 100 + doy
  era * 146097 + doe - 719468

/-- Proleptic Gregorian date (year, month, day) of a day number counted from
1970-01-01. -/
def civilFromDays (days : Int) : Int × Int × Int :=
  let z := days + 719468
  let era := z / 146097
  let doe := z - era * 146097
  let yoe := (doe - doe / 1460 + doe / 36524 - doe / 146096) / 365
  let doy := doe - (365 * yoe + yoe / 4 - yoe / 100)
  let mp := (5 * doy + 2) / 153
  let day := doy - (153 * mp + 2) / 5 + 1
  let month := if mp < 10 then mp + 3 else mp - 9
  let year := yoe + era * 400 + (if month ≤ 2 then 1 else 0)
  (year, month, day)

/-- Length of a month of the Gregorian calendar. -/
def daysInMonth (year month : Nat) : Nat :=
  if month = 2 then
    if year % 4 = 0 ∧ (year % 100 ≠ 0 ∨ year % 400 = 0) then 29 else 28
  else if month = 4 ∨ month = 6 ∨ month = 9 ∨ month = 11 then 30
  else 31

/-- A reference `Date` parser for a host whose local time is UTC, covering
the value format of `<input type="datetime-local">`, `YYYY-MM-DDTHH:mm`.
The result is the time value in milliseconds; `none` is the time value `NaN`
of an Invalid Date. -/
def dateParseUTC (s : JSString) : Option Int :=
  match s with
  | [y1, y2, y3, y4, '-', m1, m2, '-', d1, d2, 'T', h1, h2, ':', n1, n2] =>
    match digits? 0 [y1, y2, y3, y4], digits? 0 [m1, m2], digits? 0 [d1, d2],
      digits? 0 [h1, h2], digits? 0 [n1, n2] with
    | some year, some month, some day, some hour, some minute =>
      if 1 ≤ month ∧ month ≤ 12 ∧ 1 ≤ day ∧ day ≤ daysInMonth year month ∧
          hour ≤ 23 ∧ minute ≤ 59 then
        some (((daysFromCivil year month day * 24 + hour) * 60 + minute) * 60000)
      else none
    | _, _, _, _, _ => none
  | _ => none

/-- The last `width` decimal digits of `n`, zero padded. -/
def padDigits : Nat → Nat → JSString
  | 0, _ => []
  | width + 1, n => padDigits width (n / 10) ++ [Char.ofNat (48 + n % 10)]

/-- A reference `Date.prototype.toISOString` on a valid time value:
`YYYY-MM-DDTHH:mm:ss.sssZ`, with the expanded six-digit signed year outside
0000 to 9999. -/
def toISOStringUTC (t : Int) : JSString :=
  let days := t / 86400000
  let ms := (t % 86400000).toNat
  let (year, month, day) := civilFromDays days
  let yearText :=
    if 0 ≤ year ∧ year ≤ 9999 then padDigits 4 year.toNat
    else (if year < 0 then '-' else '+') :: padDigits 6 year.natAbs
  yearText ++ ['-'] ++ padDigits 2 month.toNat ++ ['-'] ++ padDigits 2 day.toNat ++
    ['T'] ++ padDigits 2 (ms / 3600000) ++ [':'] ++ padDigits 2 (ms / 60000 % 60) ++
    [':'] ++ padDigits 2 (ms / 1000 % 60) ++ ['.'] ++ padDigits 3 (ms % 1000) ++ ['Z']

/-- The relational operator `a <= b` on two `Date` objects, through their
time values: false when either is `NaN`. -/
def dateLe (a b : Option Int) : Bool :=
  match a, b with
  | some x, some y => decide (x ≤ y)
  | _, _ => false

end JS

namespace EventsPage

/-- The `matchesSearch` constant of the filter callback. -/
def matchesSearch (toLowerCase : JSString → JSString) (searchTerm : JSString)
    (event : Event) : Bool :=
  JS.includes (toLowerCase event.title) (toLowerCase searchTerm) ||
  JS.includes (toLowerCase event.description) (toLowerCase searchTerm) ||
  JS.includes (toLowerCase event.location) (toLowerCase searchTerm) ||
  event.categories.any (fun category =>
    JS.includes (toLowerCase category) (toLowerCase searchTerm))

/-- The `matchesCategories` constant of the filter callback. -/
def matchesCategories (selectedCategories : List JSString) (event : Event) : Bool :=
  selectedCategories.length = 0 ||
  event.categories.any (fun category => selectedCategories.contains category)

/-- The `filteredEvents` constant: `events.filter(...)`. -/
def filteredEvents (toLowerCase : JSString → JSString) (events : List Event)
    (searchTerm : JSString) (selectedCategories : List JSString) : List Event :=
  events.filter (fun event =>
    matchesSearch toLowerCase searchTerm event &&
    matchesCategories selectedCategories event)

end EventsPage

/-- A notification passed to `toast(...)`. -/
structure Toast where
  title : JSString
  description : JSString
  status : JSString
  duration : Nat
deriving DecidableEq, Repr

/-- A query key of the query client: an array of strings. -/
abbrev QueryKey := List JSString

namespace QueryClient

/-- Key matching of `invalidateQueries(key)`: a cached query is hit when the
given key is a leading part of its own key. -/
def keyMatches (given queryKey : QueryKey) : Bool := given.isPrefixOf queryKey

/-- The cached query `queryKey` is marked stale by one of the
`invalidateQueries` calls `calls`. -/
def invalidates (calls : List QueryKey) (queryKey : QueryKey) : Bool :=
  calls.any (fun given => keyMatches given queryKey)

end QueryClient

namespace EventPage

/-- The entries of `new FormData(e.target)` for the edit form: one string per
named input of the form. -/
structure FormData where
  title : JSString
  description : JSString
  image : JSString
  startTime : JSString
  endTime : JSString
  location : JSString
  categories : JSString
  organizer : JSString
  organizerImage : JSString
deriving DecidableEq, Repr

/-- `formData.get(name)`: the value of the input of that name, `null`
(`none`) for a name the form does not have. -/
def FormData.get (formData : FormData) (name : JSString) : Option JSString :=
  if name = "title".toList then some formData.title
  else if name = "description".toList then some formData.description
  else if name = "image".toList then some formData.image
  else if name = "startTime".toList then some formData.startTime
  else if name = "endTime".toList then some formData.endTime
  else if name = "location".toList then some formData.location
  else if name = "categories".toList then some formData.categories
  else if name = "organizer".toList then some formData.organizer
  else if name = "organizerImage".toList then some formData.organizerImage
  else none

/-- How a run of `handleSubmit` ends. -/
inductive Outcome where
  /-- A toast was shown and the handler returned without mutating. -/
  | toast (t : Toast)
  /-- The handler was aborted by the `RangeError` of `toISOString` on an
  Invalid Date. -/
  | rangeError
  /-- The handler called `mutation.mutate(updatedEvent)`. -/
  | mutate (updatedEvent : Event)
deriving DecidableEq, Repr

/-- The toast of the date check. -/
def invalidDateRangeToast : Toast where
  title := "Invalid date range".toList
  description := "End time must be after start time".toList
  status := "warning".toList
  duration := 5000

/-- The toast of the required-field check. -/
def missingFieldsToast (missingFields : List JSString) : Toast where
  title := "Missing required fields".toList
  description := "Please fill in: ".toList ++ JS.join ", ".toList missingFields
  status := "error".toList
  duration := 5000

/-- The `requiredFields` constant. -/
def requiredFields : List JSString :=
  ["title".toList, "description".toList, "location".toList, "organizer".toList]

/-- The `missingFields` constant:
`requiredFields.filter((field) => !formData.get(field))`. -/
def missingFields (formData : FormData) : List JSString :=
  requiredFields.filter (fun field =>
    match formData.get field with
    | none => true
    | some value => !JS.truthy value)

/-- The `categories` entry of `updatedEvent`:
`split(",").map((cat) => cat.trim()).filter(Boolean)`. -/
def parseCategories (text : JSString) : List JSString :=
  ((JS.split ',' text).map JS.trim).filter JS.truthy

/-- The expression `value || null`. -/
def orNull (value : JSString) : Option JSString :=
  if JS.truthy value then some value else none

/-- The `handleSubmit` of the edit form, for the loaded `event`. -/
def handleSubmit (dateParse : JSString → Option Int) (toISOString : Int → JSString)
    (event : Event) (formData : FormData) : Outcome :=
  let startTime := dateParse formData.startTime
  let endTime := dateParse formData.endTime
  if JS.dateLe endTime startTime then
    Outcome.toast invalidDateRangeToast
  else
    match startTime, endTime with
    | some start, some finish =>
      let updatedEvent : Event :=
        { event with
          id := event.id
          title := formData.title
          description := formData.description
          image := orNull formData.image
          startTime := toISOString start
          endTime := toISOString finish
          location := formData.location
          categories := parseCategories formData.categories
          organizer := formData.organizer
          organizerImage := orNull formData.organizerImage }
      let missing := missingFields formData
      if missing.length > 0 then Outcome.toast (missingFieldsToast missing)
      else Outcome.mutate updatedEvent
    | _, _ => Outcome.rangeError

/-- The keys passed to `queryClient.invalidateQueries` by `onSuccess` of the
update mutation. -/
def mutationOnSuccess (eventId : JSString) : List QueryKey :=
  [["event".toList, eventId]]

/-- The keys passed to `queryClient.invalidateQueries` by `onSuccess` of the
delete mutation. -/
def deleteMutationOnSuccess (_eventId : JSString) : List QueryKey :=
  [["events".toList]]

end EventPage

namespace AddEventPage

/-- The entries of `new FormData(e.target)` for the create form. -/
structure FormData where
  title : JSString
  description : JSString
  image : JSString
  startTime : JSString
  endTime : JSString
  location : JSString
  categories : JSString
  organizer : JSString
deriving DecidableEq, Repr

/-- The `newEvent` record given to the create mutation. -/
structure NewEvent where
  title : JSString
  description : JSString
  image : JSString
  startTime : JSString
  endTime : JSString
  location : JSString
  categories : List JSString
  organizer : JSString
deriving DecidableEq, Repr

/-- How a run of `handleSubmit` ends. -/
inductive Outcome where
  /-- The handler was aborted by the `RangeError` of `toISOString` on an
  Invalid Date. -/
  | rangeError
  /-- The handler called `mutate(newEvent)`. -/
  | mutate (newEvent : NewEvent)
deriving DecidableEq, Repr

/-- The `categories` entry of `newEvent`: `split(',').map(cat => cat.trim())`. -/
def parseCategories (text : JSString) : List JSString :=
  (JS.split ',' text).map JS.trim

/-- The `handleSubmit` of the create form. -/
def handleSubmit (dateParse : JSString → Option Int) (toISOString : Int → JSString)
    (formData : FormData) : Outcome :=
  match dateParse formData.startTime, dateParse formData.endTime with
  | some start, some finish =>
    Outcome.mutate
      { title := formData.title
        description := formData.description
        image := formData.image
        startTime := toISOString start
        endTime := toISOString finish
        location := formData.location
        categories := parseCategories formData.categories
        organizer := formData.organizer }
  | _, _ => Outcome.rangeError

/-- The keys passed to `queryClient.invalidateQueries` by `onSuccess` of the
create mutation. -/
def mutationOnSuccess : List QueryKey := [["events".toList]]

end AddEventPage

namespace EventPage

/-- An HTTP request with an event record as its body. -/
structure Request where
  method : JSString
  url : JSString
  body : Event
deriving DecidableEq, Repr

/-- The `updateEvent` function: `axios.put` of the whole record to the URL
built from its id. -/
def updateEvent (eventData : Event) : Request where
  method := "PUT".toList
  url := "http://localhost:3000/events/".toList ++ eventData.id
  body := eventData

/-- The `defaultValue` of the categories input of the edit form:
`event.categories.join(", ")`. -/
def categoriesDefaultValue (categories : List JSString) : JSString :=
  JS.join ", ".toList categories

end EventPage

namespace EventsPage

/-- The response part of a failed `axios.get` that `fetchEvents` reads: the
status the store answered with and `data.message`, `none` when `data` or
its `message` is absent. -/
structure Response where
  status : Nat
  message : Option JSString
deriving DecidableEq, Repr

/-- The error caught by `fetchEvents`: `error.code` and `error.response`,
the latter absent when no answer arrived. -/
structure AxiosError where
  code : Option JSString
  response : Option Response
deriving DecidableEq, Repr

/-- The message thrown for `ECONNREFUSED`. -/
def cannotConnectMessage : JSString :=
  "Cannot connect to the server. Please make sure json-server is running.".toList

/-- The fallback message. -/
def defaultMessage : JSString := "Failed to fetch events. Is the server running?".toList

/-- The expression `error.response?.data?.message`. -/
def responseMessage (error : AxiosError) : Option JSString :=
  match error.response with
  | none => none
  | some response => response.message

/-- The message of the `Error` thrown by the `catch` block of `fetchEvents`. -/
def fetchEventsMessage (error : AxiosError) : JSString :=
  if error.code = some "ECONNREFUSED".toList then cannotConnectMessage
  else
    match responseMessage error with
    | some message => if JS.truthy message then message else defaultMessage
    | none => defaultMessage

/-- The `fetchEvents` function, given how `axios.get` settled: the data of
the response, or an `Error` with the message chosen by the `catch` block. -/
def fetchEvents (settled : Except AxiosError (List Event)) : Except JSString (List Event) :=
  match settled with
  | Except.ok data => Except.ok data
  | Except.error error => Except.error (fetchEventsMessage error)

/-- The three transport failure classes of the specification. -/
inductive ErrorClass where
  /-- The store is unreachable: no answer arrived. -/
  | connectivity
  /-- The store answered with an error status. -/
  | rejection
  /-- The store answered that the resource is absent. -/
  | notFound
deriving DecidableEq, Repr

/-- The class of a transport error in the specification's taxonomy: no
response is a connectivity failure, status 404 is not found, any other
answer is a rejection. -/
def errorClass (error : AxiosError) : ErrorClass :=
  match error.response with
  | none => ErrorClass.connectivity
  | some response =>
    if response.status = 404 then ErrorClass.notFound else ErrorClass.rejection

end EventsPage

/-- A category tag the round trip through the edit form is stated for: not
empty, without a comma, and neither its first nor its last character is
white space. -/
def CleanTag (tag : JSString) : Prop :=
  tag ≠ [] ∧ ',' ∉ tag ∧
  (∀ c, tag.head? = some c → JS.isWhiteSpace c = false) ∧
  (∀ c, tag.getLast? = some c → JS.isWhiteSpace c = false)

/-- The string `t` occurs in `s` as a contiguous run of characters. -/
def IsSubstring (t s : JSString) : Prop := ∃ before after, s = before ++ t ++ after

/-- The search rule as the specification words it: the term is empty, or its
lower-case form occurs in the lower-cased title, description, location or in
one of the lower-cased categories. -/
def SearchRule (toLowerCase : JSString → JSString) (t : JSString) (e : Event) : Prop :=
  t = [] ∨ IsSubstring (toLowerCase t) (toLowerCase e.title) ∨
    IsSubstring (toLowerCase t) (toLowerCase e.description) ∨
    IsSubstring (toLowerCase t) (toLowerCase e.location) ∨
    ∃ c ∈ e.categories, IsSubstring (toLowerCase t) (toLowerCase c)

/-- The category rule as the specification words it: nothing is selected, or
a category of the event is one of the selected ones. -/
def CategoryRule (C : List JSString) (e : Event) : Prop :=
  C = [] ∨ ∃ c ∈ e.categories, c ∈ C

namespace EventPage

/-- The empty fields among title, description, location and organizer, in
that order, as the specification words the missing list. -/
def emptyRequiredFields (formData : FormData) : List JSString :=
  (if formData.title = [] then ["title".toList] else []) ++
  (if formData.description = [] then ["description".toList] else []) ++
  (if formData.location = [] then ["location".toList] else []) ++
  (if formData.organizer = [] then ["organizer".toList] else [])

/-- The categories a text submits, in the specification's words: the text is
split on commas, each token is trimmed of the white space on either side, and
empty tokens are discarded. -/
def specCategories (text : JSString) : List JSString :=
  ((text.splitOn ',').map (fun token =>
    (token.dropWhile JS.isWhiteSpace).rdropWhile JS.isWhiteSpace)).filter
    (fun token => decide (token ≠ []))

/-- The seven fields the specification lists as required. -/
def specRequiredFields : List JSString :=
  ["title".toList, "description".toList, "startTime".toList, "endTime".toList,
    "location".toList, "categories".toList, "organizer".toList]

/-- The field is empty in the submission; for `categories`, no non-empty
token remains after splitting on commas and trimming. -/
def FieldEmpty (formData : FormData) (field : JSString) : Prop :=
  if field = "categories".toList then specCategories formData.categories = []
  else formData.get field = some []

/-- The text of a missing-required-fields failure that names the fields of
`missing`: the names after "Please fill in: ", separated by a comma and a
space. -/
def missingFieldsText (missing : List JSString) : JSString :=
  "Please fill in: ".toList ++ (", ".toList).intercalate missing

/-- The run ended with a toast titled "Missing required fields" whose text
lists required field names, `field` among them. -/
def RejectsNaming (outcome : Outcome) (field : JSString) : Prop :=
  ∃ shown missing, outcome = Outcome.toast shown ∧
    shown.title = "Missing required fields".toList ∧
    (∀ name ∈ missing, name ∈ specRequiredFields) ∧ field ∈ missing ∧
    shown.description = missingFieldsText missing

end EventPage

namespace Sample

/-- A concert with two categories. -/
def jazzNight : Event where
  id := "1".toList
  title := "Jazz Night".toList
  description := "Live music downtown".toList
  image := none
  startTime := "2025-01-01T18:00:00.000Z".toList
  endTime := "2025-01-01T20:00:00.000Z".toList
  location := "Blue Room".toList
  categories := ["Music".toList, "Arts".toList]
  organizer := "Ada".toList
  organizerImage := none
  extra := [("createdBy".toList, "2".toList)]

/-- An event without any category. -/
def bookClub : Event where
  id := "2".toList
  title := "Book club".toList
  description := "Monthly reading".toList
  image := some "https://example.org/b.png".toList
  startTime := "2025-02-01T10:00:00.000Z".toList
  endTime := "2025-02-01T11:00:00.000Z".toList
  location := "Library".toList
  categories := []
  organizer := "Grace".toList
  organizerImage := none
  extra := []

/-- The list served by the store in the examples. -/
def events : List Event := [jazzNight, bookClub, jazzNight]

/-- An edit submission with every field filled in and a valid date range. -/
def editForm : EventPage.FormData where
  title := "Jazz Night".toList
  description := "Live music downtown".toList
  image := []
  startTime := "2025-01-01T18:00".toList
  endTime := "2025-01-01T20:00".toList
  location := "Blue Room".toList
  categories := "Music, Arts".toList
  organizer := "Ada".toList
  organizerImage := []

/-- A create submission with every field filled in and a valid date range. -/
def addForm : AddEventPage.FormData where
  title := "Jazz Night".toList
  description := "Live music downtown".toList
  image := []
  startTime := "2025-01-01T18:00".toList
  endTime := "2025-01-01T20:00".toList
  location := "Blue Room".toList
  categories := "Music, Arts".toList
  organizer := "Ada".toList

/-- The edit submission with a categories text of separators only. -/
def blankCategoriesForm : EventPage.FormData :=
  { editForm with categories := " , ".toList }

/-- The edit submission with an empty title and the end before the start. -/
def untitledBackwardsForm : EventPage.FormData :=
  { editForm with title := [], endTime := "2025-01-01T17:00".toList }

/-- The edit submission with an empty start time. -/
def blankStartForm : EventPage.FormData :=
  { editForm with startTime := [] }

/-- The edit submission with an empty title and an empty organizer. -/
def twoMissingForm : EventPage.FormData :=
  { editForm with title := [], organizer := [] }

/-- The create submission with an empty token between two commas. -/
def gappedCategoriesForm : AddEventPage.FormData :=
  { addForm with categories := "Music,,Arts".toList }

/-- The create submission with the end two hours before the start. -/
def backwardsAddForm : AddEventPage.FormData :=
  { addForm with
    startTime := "2025-01-01T20:00".toList
    endTime := "2025-01-01T18:00".toList }

/-- The edit submission with new values in every field. -/
def rewrittenForm : EventPage.FormData where
  title := "Jazz Morning".toList
  description := "Brunch set".toList
  image := "https://example.org/j.png".toList
  startTime := "2025-03-02T09:30".toList
  endTime := "2025-03-02T11:00".toList
  location := "Garden".toList
  categories := "Music, Food ,".toList
  organizer := "Linus".toList
  organizerImage := []

/-- The error of a 404 answer without a message. -/
def notFoundError : EventsPage.AxiosError where
  code := some "ERR_BAD_REQUEST".toList
  response := some { status := 404, message := none }

/-- The error of a 500 answer without a message. -/
def serverError : EventsPage.AxiosError where
  code := some "ERR_BAD_RESPONSE".toList
  response := some { status := 500, message := none }

/-- The error a browser reports when no answer arrives. -/
def networkError : EventsPage.AxiosError where
  code := some "ERR_NETWORK".toList
  response := none

end Sample

theorem JS.includes_iff (s search : JSString) :
    JS.includes s search = true ↔ IsSubstring search s := by
  unfold JS.includes IsSubstring
  rw [List.any_eq_true]
  constructor
  · rintro ⟨rest, hrest, hpre⟩
    rw [List.mem_tails] at hrest
    obtain ⟨before, rfl⟩ := hrest
    rw [List.isPrefixOf_iff_prefix] at hpre
    obtain ⟨after, rfl⟩ := hpre
    exact ⟨before, after, by simp⟩
  · rintro ⟨before, after, rfl⟩
    refine ⟨search ++ after, ?_, ?_⟩
    · rw [List.mem_tails]
      exact ⟨before, by simp⟩
    · rw [List.isPrefixOf_iff_prefix]
      exact ⟨after, rfl⟩

theorem JS.includes_nil (s : JSString) : JS.includes s [] = true := by
  rw [JS.includes_iff]
  exact ⟨[], s, by simp⟩


theorem EventsPage.matchesSearch_iff (toLowerCase : JSString → JSString)
    (hempty : toLowerCase [] = []) (t : JSString) (e : Event) :
    EventsPage.matchesSearch toLowerCase t e = true ↔ SearchRule toLowerCase t e := by
  unfold EventsPage.matchesSearch SearchRule
  simp only [Bool.or_eq_true, List.any_eq_true, JS.includes_iff]
  constructor
  · rintro (((h | h) | h) | h)
    · exact Or.inr (Or.inl h)
    · exact Or.inr (Or.inr (Or.inl h))
    · exact Or.inr (Or.inr (Or.inr (Or.inl h)))
    · exact Or.inr (Or.inr (Or.inr (Or.inr h)))
  · rintro (h | h | h | h | h)
    · subst h
      rw [hempty]
      exact Or.inl (Or.inl (Or.inl ⟨[], toLowerCase e.title, by simp⟩))
    · exact Or.inl (Or.inl (Or.inl h))
    · exact Or.inl (Or.inl (Or.inr h))
    · exact Or.inl (Or.inr h)
    · exact Or.inr h

theorem EventsPage.matchesSearch_nil (toLowerCase : JSString → JSString)
    (hempty : toLowerCase [] = []) (e : Event) :
    EventsPage.matchesSearch toLowerCase [] e = true :=
  (EventsPage.matchesSearch_iff toLowerCase hempty [] e).2 (Or.inl rfl)

theorem EventsPage.matchesCategories_iff (C : List JSString) (e : Event) :
    EventsPage.matchesCategories C e = true ↔ CategoryRule C e := by
  unfold EventsPage.matchesCategories CategoryRule
  simp [List.length_eq_zero]

theorem EventsPage.matchesCategories_nil (e : Event) :
    EventsPage.matchesCategories [] e = true :=
  (EventsPage.matchesCategories_iff [] e).2 (Or.inl rfl)

/-- C1: with no category selected, an event of the list is in `filteredEvents`
exactly when the search term is empty or its lower-case form occurs in the
lower-cased title, description, location or one of the lower-cased categories;
for the empty term the result is the whole list.  The lower-casing built-in
is any function sending the empty string to itself. -/
theorem EventsPage.filteredEvents_search_rule (toLowerCase : JSString → JSString)
    (hempty : toLowerCase [] = []) (E : List Event) (t : JSString) :
    (∀ e, e ∈ EventsPage.filteredEvents toLowerCase E t [] ↔
      e ∈ E ∧ SearchRule toLowerCase t e) ∧
    EventsPage.filteredEvents toLowerCase E [] [] = E := by
  constructor
  · intro e
    simp only [EventsPage.filteredEvents, List.mem_filter, Bool.and_eq_true,
      EventsPage.matchesCategories_nil, and_true,
      EventsPage.matchesSearch_iff toLowerCase hempty]
  · simp only [EventsPage.filteredEvents, EventsPage.matchesCategories_nil,
      EventsPage.matchesSearch_nil toLowerCase hempty, Bool.and_self, List.filter_true]

theorem EventsPage.filteredEvents_search_rule_witness :
    JS.asciiToLowerCase [] = [] ∧
    ((∀ e, e ∈ EventsPage.filteredEvents JS.asciiToLowerCase Sample.events "jazz".toList [] ↔
      e ∈ Sample.events ∧ SearchRule JS.asciiToLowerCase "jazz".toList e) ∧
    EventsPage.filteredEvents JS.asciiToLowerCase Sample.events [] [] = Sample.events) :=
  ⟨rfl, EventsPage.filteredEvents_search_rule JS.asciiToLowerCase rfl Sample.events
    "jazz".toList⟩

/-- C2: with an empty search term, an event of the list is in `filteredEvents`
exactly when no category is selected or one of its categories equals a
selected one; with nothing selected the result is the whole list; an event
without categories is excluded by every non-empty selection, and with nothing
selected it is included as soon as the term occurs in its title, description
or location. -/
theorem EventsPage.filteredEvents_category_rule (toLowerCase : JSString → JSString)
    (hempty : toLowerCase [] = []) (E : List Event) (C : List JSString) :
    (∀ e, e ∈ EventsPage.filteredEvents toLowerCase E [] C ↔ e ∈ E ∧ CategoryRule C e) ∧
    EventsPage.filteredEvents toLowerCase E [] [] = E ∧
    (∀ e, e.categories = [] → C ≠ [] →
      e ∉ EventsPage.filteredEvents toLowerCase E [] C) ∧
    (∀ e t, e ∈ E → e.categories = [] →
      (IsSubstring (toLowerCase t) (toLowerCase e.title) ∨
        IsSubstring (toLowerCase t) (toLowerCase e.description) ∨
        IsSubstring (toLowerCase t) (toLowerCase e.location)) →
      e ∈ EventsPage.filteredEvents toLowerCase E t []) := by
  have hmem : ∀ e, e ∈ EventsPage.filteredEvents toLowerCase E [] C ↔
      e ∈ E ∧ CategoryRule C e := by
    intro e
    simp only [EventsPage.filteredEvents, List.mem_filter, Bool.and_eq_true,
      EventsPage.matchesSearch_nil toLowerCase hempty, true_and,
      EventsPage.matchesCategories_iff]
  refine ⟨hmem, ?_, ?_, ?_⟩
  · simp only [EventsPage.filteredEvents, EventsPage.matchesCategories_nil,
      EventsPage.matchesSearch_nil toLowerCase hempty, Bool.and_self, List.filter_true]
  · intro e hcats hC hin
    rcases ((hmem e).1 hin).2 with h | ⟨c, hc, _⟩
    · exact hC h
    · rw [hcats] at hc
      exact absurd hc (List.not_mem_nil c)
  · intro e t he _ hmatch
    simp only [EventsPage.filteredEvents, List.mem_filter, Bool.and_eq_true,
      EventsPage.matchesCategories_nil, and_true]
    refine ⟨he, ?_⟩
    unfold EventsPage.matchesSearch
    simp only [Bool.or_eq_true, JS.includes_iff]
    rcases hmatch with h | h | h
    · exact Or.inl (Or.inl (Or.inl h))
    · exact Or.inl (Or.inl (Or.inr h))
    · exact Or.inl (Or.inr h)

theorem EventsPage.filteredEvents_category_rule_witness :
    JS.asciiToLowerCase [] = [] ∧
    ((∀ e, e ∈ EventsPage.filteredEvents JS.asciiToLowerCase Sample.events []
        ["Arts".toList] ↔ e ∈ Sample.events ∧ CategoryRule ["Arts".toList] e) ∧
    EventsPage.filteredEvents JS.asciiToLowerCase Sample.events [] [] = Sample.events ∧
    (∀ e, e.categories = [] → ["Arts".toList] ≠ [] →
      e ∉ EventsPage.filteredEvents JS.asciiToLowerCase Sample.events [] ["Arts".toList]) ∧
    (∀ e t, e ∈ Sample.events → e.categories = [] →
      (IsSubstring (JS.asciiToLowerCase t) (JS.asciiToLowerCase e.title) ∨
        IsSubstring (JS.asciiToLowerCase t) (JS.asciiToLowerCase e.description) ∨
        IsSubstring (JS.asciiToLowerCase t) (JS.asciiToLowerCase e.location)) →
      e ∈ EventsPage.filteredEvents JS.asciiToLowerCase Sample.events t [])) :=
  ⟨rfl, EventsPage.filteredEvents_category_rule JS.asciiToLowerCase rfl Sample.events
    ["Arts".toList]⟩

/-- C3: the conjunction law.  `filteredEvents` for a term and a selection is
the list of the events of the input, in input order, that are both in the
result for the term alone and in the result for the selection alone, and it
equals filtering by the term first and by the selection afterwards. -/
theorem EventsPage.filteredEvents_conjunction_law (toLowerCase : JSString → JSString)
    (hempty : toLowerCase [] = []) (E : List Event) (t : JSString) (C : List JSString) :
    EventsPage.filteredEvents toLowerCase E t C =
      E.filter (fun e =>
        decide (e ∈ EventsPage.filteredEvents toLowerCase E t [] ∧
          e ∈ EventsPage.filteredEvents toLowerCase E [] C)) ∧
    EventsPage.filteredEvents toLowerCase E t C =
      EventsPage.filteredEvents toLowerCase
        (EventsPage.filteredEvents toLowerCase E t []) [] C := by
  constructor
  · unfold EventsPage.filteredEvents
    apply List.filter_congr
    intro e he
    simp only [List.mem_filter, Bool.and_eq_true, EventsPage.matchesCategories_nil,
      EventsPage.matchesSearch_nil toLowerCase hempty, and_true, true_and, he]
    by_cases h1 : EventsPage.matchesSearch toLowerCase t e = true <;>
      by_cases h2 : EventsPage.matchesCategories C e = true <;> simp [h1, h2]
  · unfold EventsPage.filteredEvents
    rw [List.filter_filter]
    apply List.filter_congr
    intro e _
    simp only [EventsPage.matchesCategories_nil,
      EventsPage.matchesSearch_nil toLowerCase hempty, Bool.and_true, Bool.true_and]
    exact Bool.and_comm _ _

theorem EventsPage.filteredEvents_conjunction_law_witness :
    JS.asciiToLowerCase [] = [] ∧
    (EventsPage.filteredEvents JS.asciiToLowerCase Sample.events "night".toList
        ["Arts".toList] =
      Sample.events.filter (fun e =>
        decide (e ∈ EventsPage.filteredEvents JS.asciiToLowerCase Sample.events
            "night".toList [] ∧
          e ∈ EventsPage.filteredEvents JS.asciiToLowerCase Sample.events []
            ["Arts".toList])) ∧
    EventsPage.filteredEvents JS.asciiToLowerCase Sample.events "night".toList
        ["Arts".toList] =
      EventsPage.filteredEvents JS.asciiToLowerCase
        (EventsPage.filteredEvents JS.asciiToLowerCase Sample.events "night".toList [])
        [] ["Arts".toList]) :=
  ⟨rfl, EventsPage.filteredEvents_conjunction_law JS.asciiToLowerCase rfl Sample.events
    "night".toList ["Arts".toList]⟩

/-- C4: `filteredEvents` is a sublist of the input list: it keeps the input
order, holds only events of the input, and no event more often than the input
does.  Being a function of the list, the term and the selection, it gives the
same list for the same inputs. -/
theorem EventsPage.filteredEvents_sublist (toLowerCase : JSString → JSString)
    (E : List Event) (t : JSString) (C : List JSString) :
    List.Sublist (EventsPage.filteredEvents toLowerCase E t C) E ∧
    EventsPage.filteredEvents toLowerCase E t C ⊆ E ∧
    ∀ e, List.count e (EventsPage.filteredEvents toLowerCase E t C) ≤ List.count e E := by
  have hsub : List.Sublist (EventsPage.filteredEvents toLowerCase E t C) E :=
    List.filter_sublist E
  exact ⟨hsub, hsub.subset, fun e => hsub.count_le e⟩

theorem JS.truthy_eq_false_iff (s : JSString) : JS.truthy s = false ↔ s = [] := by
  cases s <;> simp [JS.truthy]

theorem JS.dateLe_some (x y : Int) : JS.dateLe (some x) (some y) = decide (x ≤ y) := rfl

theorem EventPage.missingFields_eq (formData : EventPage.FormData) :
    EventPage.missingFields formData = EventPage.emptyRequiredFields formData := by
  have h1 : formData.get "title".toList = some formData.title := rfl
  have h2 : formData.get "description".toList = some formData.description := rfl
  have h3 : formData.get "location".toList = some formData.location := rfl
  have h4 : formData.get "organizer".toList = some formData.organizer := rfl
  unfold EventPage.missingFields EventPage.requiredFields EventPage.emptyRequiredFields
  simp only [List.filter, h1, h2, h3, h4]
  cases formData.title <;> cases formData.description <;> cases formData.location <;>
    cases formData.organizer <;> simp [JS.truthy]

theorem EventPage.handleSubmit_valid_range (dateParse : JSString → Option Int)
    (toISOString : Int → JSString) (event : Event) (formData : EventPage.FormData)
    (start finish : Int) (hs : dateParse formData.startTime = some start)
    (hf : dateParse formData.endTime = some finish) (hlt : start < finish) :
    EventPage.handleSubmit dateParse toISOString event formData =
      if (EventPage.emptyRequiredFields formData).length > 0 then
        EventPage.Outcome.toast
          (EventPage.missingFieldsToast (EventPage.emptyRequiredFields formData))
      else
        EventPage.Outcome.mutate
          { event with
            id := event.id
            title := formData.title
            description := formData.description
            image := EventPage.orNull formData.image
            startTime := toISOString start
            endTime := toISOString finish
            location := formData.location
            categories := EventPage.parseCategories formData.categories
            organizer := formData.organizer
            organizerImage := EventPage.orNull formData.organizerImage } := by
  have hnot : ¬ finish ≤ start := not_le.mpr hlt
  simp only [EventPage.handleSubmit, hs, hf, JS.dateLe_some, hnot, decide_False,
    EventPage.missingFields_eq]
  rfl

/-- C5: when both dates parse and the end is not after the start, whatever
the other fields hold, `handleSubmit` ends with the "Invalid date range"
toast and never calls the update mutation; that toast differs from every
"Missing required fields" toast, already in its title. -/
theorem EventPage.handleSubmit_invalid_date_range (dateParse : JSString → Option Int)
    (toISOString : Int → JSString) (event : Event) (formData : EventPage.FormData)
    (start finish : Int) (hs : dateParse formData.startTime = some start)
    (hf : dateParse formData.endTime = some finish) (hle : finish ≤ start) :
    EventPage.handleSubmit dateParse toISOString event formData =
      EventPage.Outcome.toast EventPage.invalidDateRangeToast ∧
    (∀ updatedEvent, EventPage.handleSubmit dateParse toISOString event formData ≠
      EventPage.Outcome.mutate updatedEvent) ∧
    EventPage.invalidDateRangeToast.title = "Invalid date range".toList ∧
    (∀ missing, (EventPage.missingFieldsToast missing).title =
        "Missing required fields".toList ∧
      EventPage.invalidDateRangeToast.title ≠ (EventPage.missingFieldsToast missing).title ∧
      EventPage.handleSubmit dateParse toISOString event formData ≠
        EventPage.Outcome.toast (EventPage.missingFieldsToast missing)) := by
  have hrun : EventPage.handleSubmit dateParse toISOString event formData =
      EventPage.Outcome.toast EventPage.invalidDateRangeToast := by
    simp only [EventPage.handleSubmit, hs, hf, JS.dateLe_some, hle, decide_True, if_true]
  have htitle : ∀ missing, EventPage.invalidDateRangeToast.title ≠
      (EventPage.missingFieldsToast missing).title := by
    intro missing
    simp only [EventPage.invalidDateRangeToast, EventPage.missingFieldsToast]
    decide
  refine ⟨hrun, ?_, rfl, ?_⟩
  · intro updatedEvent
    rw [hrun]
    exact fun h => EventPage.Outcome.noConfusion h
  · intro missing
    refine ⟨rfl, htitle missing, ?_⟩
    rw [hrun]
    intro h
    injection h with h
    exact htitle missing (congrArg Toast.title h)

theorem EventPage.handleSubmit_invalid_date_range_witness :
    JS.dateParseUTC Sample.untitledBackwardsForm.startTime = some 1735754400000 ∧
    JS.dateParseUTC Sample.untitledBackwardsForm.endTime = some 1735750800000 ∧
    (1735750800000 : Int) ≤ 1735754400000 ∧
    EventPage.handleSubmit JS.dateParseUTC JS.toISOStringUTC Sample.jazzNight
      Sample.untitledBackwardsForm = EventPage.Outcome.toast EventPage.invalidDateRangeToast :=
  ⟨by decide, by decide, by decide,
    (EventPage.handleSubmit_invalid_date_range JS.dateParseUTC JS.toISOStringUTC
      Sample.jazzNight Sample.untitledBackwardsForm 1735754400000 1735750800000
      (by decide) (by decide) (by decide)).1⟩

theorem EventPage.mem_missingFields (formData : EventPage.FormData) (field : JSString)
    (hfield : field ∈ EventPage.requiredFields)
    (hempty : EventPage.FieldEmpty formData field) :
    field ∈ EventPage.missingFields formData := by
  have hne : field ≠ "categories".toList := by
    intro h
    rw [h] at hfield
    revert hfield
    decide
  unfold EventPage.FieldEmpty at hempty
  rw [if_neg hne] at hempty
  unfold EventPage.missingFields
  rw [List.mem_filter]
  refine ⟨hfield, ?_⟩
  rw [hempty]
  rfl

theorem EventPage.missingFields_of_mutate (dateParse : JSString → Option Int)
    (toISOString : Int → JSString) (event : Event) (formData : EventPage.FormData)
    (updatedEvent : Event)
    (h : EventPage.handleSubmit dateParse toISOString event formData =
      EventPage.Outcome.mutate updatedEvent) :
    EventPage.missingFields formData = [] := by
  unfold EventPage.handleSubmit at h
  simp only at h
  split at h
  · exact EventPage.Outcome.noConfusion h
  · split at h
    · split at h
      · exact EventPage.Outcome.noConfusion h
      · next hlen =>
        exact List.length_eq_zero.mp (Nat.eq_zero_of_not_pos hlen)
    · exact EventPage.Outcome.noConfusion h

theorem JS.join_eq_intercalate (sep : JSString) :
    ∀ pieces : List JSString, JS.join sep pieces = sep.intercalate pieces
  | [] => rfl
  | [s] => by simp [JS.join, List.intercalate]
  | s :: t :: rest => by
    have ih := JS.join_eq_intercalate sep (t :: rest)
    simp only [List.intercalate] at ih
    simp [JS.join, List.intercalate, ih]

theorem EventPage.missingFieldsToast_description (missing : List JSString) :
    (EventPage.missingFieldsToast missing).description =
      EventPage.missingFieldsText missing := by
  simp only [EventPage.missingFieldsToast, EventPage.missingFieldsText,
    JS.join_eq_intercalate]

theorem EventPage.emptyRequiredFields_subset (formData : EventPage.FormData) :
    ∀ name ∈ EventPage.emptyRequiredFields formData,
      name ∈ EventPage.specRequiredFields := by
  intro name hname
  have hreq : name ∈ EventPage.requiredFields := by
    rw [← EventPage.missingFields_eq] at hname
    exact (List.mem_filter.mp hname).1
  revert hreq
  simp only [EventPage.requiredFields, EventPage.specRequiredFields, List.mem_cons,
    List.mem_singleton, List.not_mem_nil, or_false]
  rintro (h | h | h | h) <;> simp [h]

/-- C6: the handler checks only title, description, location and organizer.
A categories text of separators only leaves no token, yet the submission is
sent to the update mutation with an empty category list and no failure is
reported; and an empty start time aborts the handler with the RangeError of
`toISOString`, without any failure naming the field. -/
theorem EventPage.handleSubmit_unchecked_required_fields :
    ("categories".toList ∈ EventPage.specRequiredFields ∧
      Sample.blankCategoriesForm.categories = " , ".toList ∧
      EventPage.FieldEmpty Sample.blankCategoriesForm "categories".toList ∧
      EventPage.handleSubmit JS.dateParseUTC JS.toISOStringUTC Sample.jazzNight
          Sample.blankCategoriesForm =
        EventPage.Outcome.mutate { Sample.jazzNight with categories := [] } ∧
      ¬ EventPage.RejectsNaming
        (EventPage.handleSubmit JS.dateParseUTC JS.toISOStringUTC Sample.jazzNight
          Sample.blankCategoriesForm) "categories".toList) ∧
    ("startTime".toList ∈ EventPage.specRequiredFields ∧
      EventPage.FieldEmpty Sample.blankStartForm "startTime".toList ∧
      EventPage.handleSubmit JS.dateParseUTC JS.toISOStringUTC Sample.jazzNight
          Sample.blankStartForm = EventPage.Outcome.rangeError ∧
      ¬ EventPage.RejectsNaming
        (EventPage.handleSubmit JS.dateParseUTC JS.toISOStringUTC Sample.jazzNight
          Sample.blankStartForm) "startTime".toList) := by
  have h1 : EventPage.handleSubmit JS.dateParseUTC JS.toISOStringUTC Sample.jazzNight
      Sample.blankCategoriesForm =
      EventPage.Outcome.mutate { Sample.jazzNight with categories := [] } := by decide
  have h2 : EventPage.handleSubmit JS.dateParseUTC JS.toISOStringUTC Sample.jazzNight
      Sample.blankStartForm = EventPage.Outcome.rangeError := by decide
  refine ⟨⟨by decide, by decide, ?_, h1, ?_⟩, ⟨by decide, ?_, h2, ?_⟩⟩
  · unfold EventPage.FieldEmpty
    decide
  · rintro ⟨shown, missing, h, _⟩
    rw [h1] at h
    exact EventPage.Outcome.noConfusion h
  · unfold EventPage.FieldEmpty
    decide
  · rintro ⟨shown, missing, h, _⟩
    rw [h2] at h
    exact EventPage.Outcome.noConfusion h

/-- What the required-field check of the handler does guarantee: for each of
the four fields title, description, location and organizer, a submission in
which that field is empty is never sent to the update mutation, and when both
dates parse with the end strictly after the start it ends with the
missing-required-fields toast whose text names the field. -/
theorem EventPage.handleSubmit_missing_required_field (dateParse : JSString → Option Int)
    (toISOString : Int → JSString) (event : Event) (formData : EventPage.FormData)
    (field : JSString) (hfield : field ∈ EventPage.requiredFields)
    (hempty : EventPage.FieldEmpty formData field) :
    (∀ updatedEvent, EventPage.handleSubmit dateParse toISOString event formData ≠
      EventPage.Outcome.mutate updatedEvent) ∧
    (∀ start finish, dateParse formData.startTime = some start →
      dateParse formData.endTime = some finish → start < finish →
      EventPage.RejectsNaming
        (EventPage.handleSubmit dateParse toISOString event formData) field) := by
  have hmem := EventPage.mem_missingFields formData field hfield hempty
  constructor
  · intro updatedEvent h
    have hnil := EventPage.missingFields_of_mutate dateParse toISOString event formData
      updatedEvent h
    rw [hnil] at hmem
    exact List.not_mem_nil field hmem
  · intro start finish hs hf hlt
    rw [EventPage.missingFields_eq] at hmem
    refine ⟨EventPage.missingFieldsToast (EventPage.emptyRequiredFields formData),
      EventPage.emptyRequiredFields formData, ?_, rfl,
      EventPage.emptyRequiredFields_subset formData, hmem,
      EventPage.missingFieldsToast_description _⟩
    rw [EventPage.handleSubmit_valid_range dateParse toISOString event formData
      start finish hs hf hlt]
    rw [if_pos (List.length_pos_of_mem hmem)]

theorem EventPage.handleSubmit_missing_required_field_witness :
    "organizer".toList ∈ EventPage.requiredFields ∧
    EventPage.FieldEmpty Sample.twoMissingForm "organizer".toList ∧
    JS.dateParseUTC Sample.twoMissingForm.startTime = some 1735754400000 ∧
    JS.dateParseUTC Sample.twoMissingForm.endTime = some 1735761600000 ∧
    (1735754400000 : Int) < 1735761600000 ∧
    EventPage.RejectsNaming
      (EventPage.handleSubmit JS.dateParseUTC JS.toISOStringUTC Sample.jazzNight
        Sample.twoMissingForm) "organizer".toList :=
  ⟨by decide, by unfold EventPage.FieldEmpty; decide, by decide, by decide, by decide,
    (EventPage.handleSubmit_missing_required_field JS.dateParseUTC JS.toISOStringUTC
      Sample.jazzNight Sample.twoMissingForm "organizer".toList (by decide)
      (by unfold EventPage.FieldEmpty; decide)).2 1735754400000 1735761600000
      (by decide) (by decide) (by decide)⟩

theorem EventPage.missingFieldsText_names (formData : EventPage.FormData) :
    (IsSubstring "title".toList
        (EventPage.missingFieldsText (EventPage.emptyRequiredFields formData)) ↔
      formData.title = []) ∧
    (IsSubstring "description".toList
        (EventPage.missingFieldsText (EventPage.emptyRequiredFields formData)) ↔
      formData.description = []) ∧
    (IsSubstring "location".toList
        (EventPage.missingFieldsText (EventPage.emptyRequiredFields formData)) ↔
      formData.location = []) ∧
    (IsSubstring "organizer".toList
        (EventPage.missingFieldsText (EventPage.emptyRequiredFields formData)) ↔
      formData.organizer = []) := by
  simp only [← JS.includes_iff, EventPage.emptyRequiredFields]
  by_cases h1 : formData.title = [] <;> by_cases h2 : formData.description = [] <;>
    by_cases h3 : formData.location = [] <;> by_cases h4 : formData.organizer = [] <;>
    simp only [h1, h2, h3, h4, if_true, if_false, iff_true, iff_false] <;> decide

/-- C7: for a submission whose dates parse with the end strictly after the
start, the missing list computed by `handleSubmit` is exactly the empty
fields among title, description, location and organizer, in that order.  When
it is not empty the run ends with the toast titled "Missing required fields"
whose text is "Please fill in: " followed by those names separated by a comma
and a space, so the text names every empty one of the four fields and no
filled one; a submission missing only the title is told "Please fill in:
title"; and the update mutation is called exactly when none of the four is
empty. -/
theorem EventPage.handleSubmit_missing_list (dateParse : JSString → Option Int)
    (toISOString : Int → JSString) (event : Event) (formData : EventPage.FormData)
    (start finish : Int) (hs : dateParse formData.startTime = some start)
    (hf : dateParse formData.endTime = some finish) (hlt : start < finish) :
    EventPage.missingFields formData = EventPage.emptyRequiredFields formData ∧
    (∀ field, field ∈ EventPage.missingFields formData ↔
      field ∈ EventPage.requiredFields ∧ formData.get field = some []) ∧
    (EventPage.emptyRequiredFields formData ≠ [] →
      EventPage.handleSubmit dateParse toISOString event formData =
        EventPage.Outcome.toast
          { title := "Missing required fields".toList
            description :=
              EventPage.missingFieldsText (EventPage.emptyRequiredFields formData)
            status := "error".toList
            duration := 5000 }) ∧
    ((IsSubstring "title".toList
          (EventPage.missingFieldsText (EventPage.emptyRequiredFields formData)) ↔
        formData.title = []) ∧
      (IsSubstring "description".toList
          (EventPage.missingFieldsText (EventPage.emptyRequiredFields formData)) ↔
        formData.description = []) ∧
      (IsSubstring "location".toList
          (EventPage.missingFieldsText (EventPage.emptyRequiredFields formData)) ↔
        formData.location = []) ∧
      (IsSubstring "organizer".toList
          (EventPage.missingFieldsText (EventPage.emptyRequiredFields formData)) ↔
        formData.organizer = [])) ∧
    (formData.title = [] → formData.description ≠ [] → formData.location ≠ [] →
      formData.organizer ≠ [] →
      EventPage.handleSubmit dateParse toISOString event formData =
        EventPage.Outcome.toast
          { title := "Missing required fields".toList
            description := "Please fill in: title".toList
            status := "error".toList
            duration := 5000 }) ∧
    ((∃ updatedEvent, EventPage.handleSubmit dateParse toISOString event formData =
        EventPage.Outcome.mutate updatedEvent) ↔
      EventPage.emptyRequiredFields formData = []) ∧
    (EventPage.emptyRequiredFields formData = [] ↔
      formData.title ≠ [] ∧ formData.description ≠ [] ∧ formData.location ≠ [] ∧
        formData.organizer ≠ []) := by
  have hrun := EventPage.handleSubmit_valid_range dateParse toISOString event formData
    start finish hs hf hlt
  have htoast : ∀ missing, EventPage.missingFieldsToast missing =
      { title := "Missing required fields".toList
        description := EventPage.missingFieldsText missing
        status := "error".toList
        duration := 5000 } := by
    intro missing
    simp only [EventPage.missingFieldsToast, EventPage.missingFieldsText,
      JS.join_eq_intercalate]
  refine ⟨EventPage.missingFields_eq formData, ?_, ?_,
    EventPage.missingFieldsText_names formData, ?_, ?_, ?_⟩
  · intro field
    unfold EventPage.missingFields
    rw [List.mem_filter]
    constructor
    · rintro ⟨hreq, hpred⟩
      refine ⟨hreq, ?_⟩
      cases hget : formData.get field with
      | none =>
        exfalso
        revert hget
        simp only [EventPage.requiredFields, List.mem_cons, List.mem_singleton,
          List.not_mem_nil, or_false] at hreq
        rcases hreq with h | h | h | h <;> subst h <;> intro hget <;> cases hget
      | some value =>
        rw [hget] at hpred
        simp only [Bool.not_eq_true', JS.truthy_eq_false_iff] at hpred
        rw [hpred]
    · rintro ⟨hreq, hget⟩
      refine ⟨hreq, ?_⟩
      rw [hget]
      rfl
  · intro hne
    rw [hrun, if_pos (List.length_pos.mpr hne), htoast]
  · intro h1 h2 h3 h4
    have hlist : EventPage.emptyRequiredFields formData = ["title".toList] := by
      simp [EventPage.emptyRequiredFields, h1, h2, h3, h4]
    rw [hrun, hlist, htoast]
    rfl
  · constructor
    · rintro ⟨updatedEvent, h⟩
      rw [← EventPage.missingFields_eq]
      exact EventPage.missingFields_of_mutate dateParse toISOString event formData
        updatedEvent h
    · intro hnil
      rw [hrun, hnil]
      exact ⟨_, rfl⟩
  · by_cases h1 : formData.title = [] <;> by_cases h2 : formData.description = [] <;>
      by_cases h3 : formData.location = [] <;> by_cases h4 : formData.organizer = [] <;>
      simp [EventPage.emptyRequiredFields, h1, h2, h3, h4]

theorem EventPage.handleSubmit_missing_list_witness :
    JS.dateParseUTC Sample.twoMissingForm.startTime = some 1735754400000 ∧
    JS.dateParseUTC Sample.twoMissingForm.endTime = some 1735761600000 ∧
    (1735754400000 : Int) < 1735761600000 ∧
    EventPage.emptyRequiredFields Sample.twoMissingForm =
      ["title".toList, "organizer".toList] ∧
    EventPage.missingFieldsText (EventPage.emptyRequiredFields Sample.twoMissingForm) =
      "Please fill in: title, organizer".toList ∧
    EventPage.handleSubmit JS.dateParseUTC JS.toISOStringUTC Sample.jazzNight
        Sample.twoMissingForm =
      EventPage.Outcome.toast
        { title := "Missing required fields".toList
          description :=
            EventPage.missingFieldsText (EventPage.emptyRequiredFields Sample.twoMissingForm)
          status := "error".toList
          duration := 5000 } :=
  ⟨by decide, by decide, by decide, by decide, by decide,
    (EventPage.handleSubmit_missing_list JS.dateParseUTC JS.toISOStringUTC
      Sample.jazzNight Sample.twoMissingForm 1735754400000 1735761600000
      (by decide) (by decide) (by decide)).2.2.1 (by decide)⟩

/-- C8: the create handler splits the categories text on commas and trims
each token, so "Music, Arts" gives Music and Arts; but it does not discard
empty tokens: for "Music,,Arts" the record given to the create mutation holds
an empty-string category, where the edit handler on the same text gives Music
and Arts only. -/
theorem AddEventPage.handleSubmit_keeps_empty_category :
    AddEventPage.parseCategories "Music, Arts".toList = ["Music".toList, "Arts".toList] ∧
    AddEventPage.handleSubmit JS.dateParseUTC JS.toISOStringUTC
        Sample.gappedCategoriesForm =
      AddEventPage.Outcome.mutate
        { title := "Jazz Night".toList
          description := "Live music downtown".toList
          image := []
          startTime := "2025-01-01T18:00:00.000Z".toList
          endTime := "2025-01-01T20:00:00.000Z".toList
          location := "Blue Room".toList
          categories := ["Music".toList, [], "Arts".toList]
          organizer := "Ada".toList } ∧
    [] ∈ AddEventPage.parseCategories Sample.gappedCategoriesForm.categories ∧
    EventPage.parseCategories Sample.gappedCategoriesForm.categories =
      ["Music".toList, "Arts".toList] := by
  refine ⟨by decide, by decide, by decide, by decide⟩

/-- C9: the create handler has no date check: a submission whose end is two
hours before its start is given to the create mutation, with that end and
that start. -/
theorem AddEventPage.handleSubmit_backwards_range_mutates :
    JS.dateParseUTC Sample.backwardsAddForm.startTime = some 1735761600000 ∧
    JS.dateParseUTC Sample.backwardsAddForm.endTime = some 1735754400000 ∧
    (1735754400000 : Int) ≤ 1735761600000 ∧
    AddEventPage.handleSubmit JS.dateParseUTC JS.toISOStringUTC Sample.backwardsAddForm =
      AddEventPage.Outcome.mutate
        { title := "Jazz Night".toList
          description := "Live music downtown".toList
          image := []
          startTime := "2025-01-01T20:00:00.000Z".toList
          endTime := "2025-01-01T18:00:00.000Z".toList
          location := "Blue Room".toList
          categories := ["Music".toList, "Arts".toList]
          organizer := "Ada".toList } := by
  refine ⟨by decide, by decide, by decide, by decide⟩

/-- C10, the claim as stated fails: the update of event 1 does not invalidate
the all-events key, and the delete of event 1 does not invalidate the key of
event 1. -/
theorem EventPage.update_delete_keys_counterexample :
    QueryClient.invalidates (EventPage.mutationOnSuccess "1".toList)
      ["events".toList] = false ∧
    QueryClient.invalidates (EventPage.deleteMutationOnSuccess "1".toList)
      ["event".toList, "1".toList] = false := by
  constructor <;> decide

/-- C10 as amended: on success, create invalidates the all-events key, the
update of an event invalidates the key of that event, and the delete of an
event invalidates the all-events key. -/
theorem QueryClient.onSuccess_invalidation (eventId : JSString) :
    QueryClient.invalidates AddEventPage.mutationOnSuccess ["events".toList] = true ∧
    QueryClient.invalidates (EventPage.mutationOnSuccess eventId)
      ["event".toList, eventId] = true ∧
    QueryClient.invalidates (EventPage.deleteMutationOnSuccess eventId)
      ["events".toList] = true := by
  refine ⟨by decide, ?_, ?_⟩
  · simp only [QueryClient.invalidates, EventPage.mutationOnSuccess, QueryClient.keyMatches,
      List.any_cons, List.any_nil, Bool.or_false, List.isPrefixOf_iff_prefix]
    exact List.prefix_refl _
  · show QueryClient.invalidates [["events".toList]] ["events".toList] = true
    decide

/-- C11: a submission that passes validation (both dates parse with the end
strictly after the start, and title, description, location and organizer are
filled in) is given to the update mutation as a whole record: it has the id
of the loaded event and every attribute the form does not edit unchanged, and
each edited attribute holds the submitted value, the dates as the ISO text of
the parsed instants, the categories as the tokens of the submitted text
between its commas, trimmed and without the empty ones, and an empty image or
organizer image as null.  `updateEvent` sends that record as the
body of a PUT to the URL of the loaded event. -/
theorem EventPage.handleSubmit_full_record (dateParse : JSString → Option Int)
    (toISOString : Int → JSString) (event : Event) (formData : EventPage.FormData)
    (start finish : Int) (hs : dateParse formData.startTime = some start)
    (hf : dateParse formData.endTime = some finish) (hlt : start < finish)
    (htitle : formData.title ≠ []) (hdescription : formData.description ≠ [])
    (hlocation : formData.location ≠ []) (horganizer : formData.organizer ≠ []) :
    ∃ updatedEvent,
      EventPage.handleSubmit dateParse toISOString event formData =
        EventPage.Outcome.mutate updatedEvent ∧
      updatedEvent.id = event.id ∧
      updatedEvent.extra = event.extra ∧
      updatedEvent.title = formData.title ∧
      updatedEvent.description = formData.description ∧
      updatedEvent.image = (if formData.image = [] then none else some formData.image) ∧
      updatedEvent.startTime = toISOString start ∧
      updatedEvent.endTime = toISOString finish ∧
      updatedEvent.location = formData.location ∧
      updatedEvent.categories = EventPage.specCategories formData.categories ∧
      updatedEvent.organizer = formData.organizer ∧
      updatedEvent.organizerImage =
        (if formData.organizerImage = [] then none else some formData.organizerImage) ∧
      (EventPage.updateEvent updatedEvent).body = updatedEvent ∧
      (EventPage.updateEvent updatedEvent).method = "PUT".toList ∧
      (EventPage.updateEvent updatedEvent).url =
        "http://localhost:3000/events/".toList ++ event.id := by
  have hnil : EventPage.emptyRequiredFields formData = [] := by
    simp [EventPage.emptyRequiredFields, htitle, hdescription, hlocation, horganizer]
  have hnull : ∀ value : JSString,
      EventPage.orNull value = (if value = [] then none else some value) := by
    intro value
    cases value <;> simp [EventPage.orNull, JS.truthy]
  have hsplit : ∀ text : JSString, JS.split ',' text = text.splitOn ',' := by
    intro text
    induction text with
    | nil => rfl
    | cons c cs ih =>
      have hcons : (c :: cs).splitOn ',' =
          if (c == ',') = true then [] :: cs.splitOn ','
          else (cs.splitOn ',').modifyHead (List.cons c) :=
        List.splitOnP_cons (fun x => x == ',') c cs
      rw [hcons]
      unfold JS.split
      rw [ih]
      by_cases h : c = ','
      · simp [h]
      · have hne : cs.splitOn ',' ≠ [] := List.splitOnP_ne_nil (fun x => x == ',') cs
        simp only [h, if_false, beq_iff_eq]
        cases hpieces : cs.splitOn ',' with
        | nil => exact absurd hpieces hne
        | cons piece pieces => rfl
  have hcategories : EventPage.parseCategories formData.categories =
      EventPage.specCategories formData.categories := by
    unfold EventPage.parseCategories EventPage.specCategories
    rw [hsplit]
    have hmap : List.map JS.trim (formData.categories.splitOn ',') =
        List.map (fun token =>
          (token.dropWhile JS.isWhiteSpace).rdropWhile JS.isWhiteSpace)
          (formData.categories.splitOn ',') :=
      List.map_congr_left (fun token _ => rfl)
    rw [hmap]
    apply List.filter_congr
    intro token _
    cases token <;> simp [JS.truthy]
  refine ⟨{ event with
      id := event.id
      title := formData.title
      description := formData.description
      image := EventPage.orNull formData.image
      startTime := toISOString start
      endTime := toISOString finish
      location := formData.location
      categories := EventPage.parseCategories formData.categories
      organizer := formData.organizer
      organizerImage := EventPage.orNull formData.organizerImage },
    ?_, rfl, rfl, rfl, rfl, hnull _, rfl, rfl, rfl,
    hcategories, rfl, hnull _, rfl, rfl, rfl⟩
  rw [EventPage.handleSubmit_valid_range dateParse toISOString event formData
    start finish hs hf hlt, hnil]
  rfl

theorem EventPage.handleSubmit_full_record_witness :
    JS.dateParseUTC Sample.rewrittenForm.startTime = some 1740907800000 ∧
    JS.dateParseUTC Sample.rewrittenForm.endTime = some 1740913200000 ∧
    (1740907800000 : Int) < 1740913200000 ∧
    Sample.rewrittenForm.title ≠ [] ∧ Sample.rewrittenForm.description ≠ [] ∧
    Sample.rewrittenForm.location ≠ [] ∧ Sample.rewrittenForm.organizer ≠ [] ∧
    Sample.rewrittenForm.categories = "Music, Food ,".toList ∧
    ∃ updatedEvent,
      EventPage.handleSubmit JS.dateParseUTC JS.toISOStringUTC Sample.jazzNight
        Sample.rewrittenForm = EventPage.Outcome.mutate updatedEvent ∧
      updatedEvent.id = Sample.jazzNight.id ∧
      updatedEvent.extra = Sample.jazzNight.extra ∧
      updatedEvent.title = Sample.rewrittenForm.title ∧
      updatedEvent.categories = ["Music".toList, "Food".toList] :=
  ⟨by decide, by decide, by decide, by decide, by decide, by decide, by decide, by decide,
    (EventPage.handleSubmit_full_record JS.dateParseUTC JS.toISOStringUTC
      Sample.jazzNight Sample.rewrittenForm 1740907800000 1740913200000
      (by decide) (by decide) (by decide) (by decide) (by decide) (by decide)
      (by decide)).imp (fun _ h =>
        ⟨h.1, h.2.1, h.2.2.1, h.2.2.2.1,
          h.2.2.2.2.2.2.2.2.2.1.trans (by decide)⟩)⟩

/-- C12, the claim as stated fails: a 404 answer without a message, a 500
answer without a message and an error without any answer are of three
different classes, and `fetchEvents` throws the same default message for all
three. -/
theorem EventsPage.fetchEvents_classes_counterexample :
    EventsPage.errorClass Sample.notFoundError = EventsPage.ErrorClass.notFound ∧
    EventsPage.errorClass Sample.serverError = EventsPage.ErrorClass.rejection ∧
    EventsPage.errorClass Sample.networkError = EventsPage.ErrorClass.connectivity ∧
    EventsPage.fetchEvents (Except.error Sample.notFoundError) =
      Except.error EventsPage.defaultMessage ∧
    EventsPage.fetchEvents (Except.error Sample.serverError) =
      Except.error EventsPage.defaultMessage ∧
    EventsPage.fetchEvents (Except.error Sample.networkError) =
      Except.error EventsPage.defaultMessage ∧
    ¬ (∀ first second, EventsPage.errorClass first ≠ EventsPage.errorClass second →
      EventsPage.fetchEventsMessage first ≠ EventsPage.fetchEventsMessage second) := by
  have hthrown : ∀ error, EventsPage.fetchEventsMessage error = EventsPage.defaultMessage →
      EventsPage.fetchEvents (Except.error error) =
        Except.error EventsPage.defaultMessage := by
    intro error h
    simp only [EventsPage.fetchEvents, h]
  refine ⟨by decide, by decide, by decide, hthrown _ (by decide), hthrown _ (by decide),
    hthrown _ (by decide), ?_⟩
  intro h
  exact h Sample.notFoundError Sample.serverError (by decide) (by decide)

/-- C12 as amended: for every transport error, `fetchEvents` throws the
cannot-connect message when the error code is `ECONNREFUSED`, otherwise the
message of the response when there is a non-empty one, otherwise the default
message; the cannot-connect message and the default message differ. -/
theorem EventsPage.fetchEvents_message (error : EventsPage.AxiosError) :
    (error.code = some "ECONNREFUSED".toList →
      EventsPage.fetchEvents (Except.error error) =
        Except.error EventsPage.cannotConnectMessage) ∧
    (∀ response message, error.code ≠ some "ECONNREFUSED".toList →
      error.response = some response → response.message = some message → message ≠ [] →
      EventsPage.fetchEvents (Except.error error) = Except.error message) ∧
    (error.code ≠ some "ECONNREFUSED".toList →
      (∀ response message, error.response = some response →
        response.message = some message → message = []) →
      EventsPage.fetchEvents (Except.error error) =
        Except.error EventsPage.defaultMessage) ∧
    EventsPage.cannotConnectMessage ≠ EventsPage.defaultMessage := by
  refine ⟨?_, ?_, ?_, by decide⟩
  · intro hcode
    simp only [EventsPage.fetchEvents, EventsPage.fetchEventsMessage, hcode, if_true]
  · intro response message hcode hresponse hmessage hne
    have htruthy : JS.truthy message = true := by
      cases message with
      | nil => exact absurd rfl hne
      | cons c cs => rfl
    simp only [EventsPage.fetchEvents, EventsPage.fetchEventsMessage, hcode, if_false,
      EventsPage.responseMessage, hresponse, hmessage, htruthy, if_true]
  · intro hcode hnone
    simp only [EventsPage.fetchEvents, EventsPage.fetchEventsMessage, hcode, if_false]
    cases hresponse : error.response with
    | none => simp only [EventsPage.responseMessage, hresponse]
    | some response =>
      cases hmessage : response.message with
      | none => simp only [EventsPage.responseMessage, hresponse, hmessage]
      | some message =>
        have hnil := hnone response message hresponse hmessage
        subst hnil
        simp only [EventsPage.responseMessage, hresponse, hmessage]
        rfl

theorem JS.split_ne_nil (sep : Char) (s : JSString) : JS.split sep s ≠ [] := by
  cases s with
  | nil => simp [JS.split]
  | cons c cs =>
    unfold JS.split
    split
    · simp
    · split <;> simp

theorem JS.split_of_not_mem (sep : Char) (s : JSString) (h : sep ∉ s) :
    JS.split sep s = [s] := by
  induction s with
  | nil => rfl
  | cons c cs ih =>
    have hc : c ≠ sep := fun hc => h (hc ▸ List.mem_cons_self c cs)
    have hcs : sep ∉ cs := fun hcs => h (List.mem_cons_of_mem c hcs)
    simp [JS.split, hc, ih hcs]

theorem JS.split_append_sep (sep : Char) (s rest : JSString) (h : sep ∉ s) :
    JS.split sep (s ++ sep :: rest) = s :: JS.split sep rest := by
  induction s with
  | nil => simp [JS.split]
  | cons c cs ih =>
    have hc : c ≠ sep := fun hc => h (hc ▸ List.mem_cons_self c cs)
    have hcs : sep ∉ cs := fun hcs => h (List.mem_cons_of_mem c hcs)
    simp [JS.split, hc, ih hcs]

theorem JS.split_cons_of_ne (sep c : Char) (cs piece : JSString) (pieces : List JSString)
    (hc : c ≠ sep) (h : JS.split sep cs = piece :: pieces) :
    JS.split sep (c :: cs) = (c :: piece) :: pieces := by
  simp [JS.split, hc, h]

theorem JS.join_cons_cons (sep s t : JSString) (rest : List JSString) :
    JS.join sep (s :: t :: rest) = s ++ sep ++ JS.join sep (t :: rest) := rfl

theorem JS.split_join_comma_space (first : JSString) (rest : List JSString)
    (h : ∀ tag ∈ first :: rest, ',' ∉ tag) :
    JS.split ',' (JS.join ", ".toList (first :: rest)) =
      first :: rest.map (fun tag => ' ' :: tag) := by
  induction rest generalizing first with
  | nil =>
    simpa [JS.join] using JS.split_of_not_mem ',' first (h first (List.mem_cons_self _ _))
  | cons second rest ih =>
    have hfirst : ',' ∉ first := h first (List.mem_cons_self _ _)
    have hrest : ∀ tag ∈ second :: rest, ',' ∉ tag :=
      fun tag htag => h tag (List.mem_cons_of_mem _ htag)
    rw [JS.join_cons_cons]
    have hshape : first ++ ", ".toList ++ JS.join ", ".toList (second :: rest) =
        first ++ ',' :: (' ' :: JS.join ", ".toList (second :: rest)) := by
      simp
    rw [hshape, JS.split_append_sep ',' first _ hfirst,
      JS.split_cons_of_ne ',' ' ' _ second (rest.map (fun tag => ' ' :: tag))
        (by decide) (ih second hrest)]
    rfl

theorem JS.dropWhile_of_head (p : Char → Bool) (s : JSString)
    (h : ∀ c, s.head? = some c → p c = false) : s.dropWhile p = s := by
  cases s with
  | nil => rfl
  | cons c cs =>
    have hc : p c = false := h c rfl
    simp [List.dropWhile_cons, hc]

theorem JS.trim_of_clean (tag : JSString)
    (hhead : ∀ c, tag.head? = some c → JS.isWhiteSpace c = false)
    (hlast : ∀ c, tag.getLast? = some c → JS.isWhiteSpace c = false) :
    JS.trim tag = tag ∧ JS.trim (' ' :: tag) = tag := by
  have hdrop : tag.dropWhile JS.isWhiteSpace = tag :=
    JS.dropWhile_of_head JS.isWhiteSpace tag hhead
  have hrev : tag.reverse.dropWhile JS.isWhiteSpace = tag.reverse := by
    apply JS.dropWhile_of_head
    intro c hc
    rw [List.head?_reverse] at hc
    exact hlast c hc
  have hspace : JS.isWhiteSpace ' ' = true := by decide
  constructor
  · unfold JS.trim
    rw [hdrop, hrev, List.reverse_reverse]
  · unfold JS.trim
    rw [List.dropWhile_cons, if_pos hspace, hdrop, hrev, List.reverse_reverse]

theorem EventPage.categories_of_mutate (dateParse : JSString → Option Int)
    (toISOString : Int → JSString) (event : Event) (formData : EventPage.FormData)
    (updatedEvent : Event)
    (h : EventPage.handleSubmit dateParse toISOString event formData =
      EventPage.Outcome.mutate updatedEvent) :
    updatedEvent.categories = EventPage.parseCategories formData.categories := by
  unfold EventPage.handleSubmit at h
  simp only at h
  split at h
  · exact EventPage.Outcome.noConfusion h
  · split at h
    · split at h
      · exact EventPage.Outcome.noConfusion h
      · injection h with h
        rw [← h]
    · exact EventPage.Outcome.noConfusion h

/-- C13: for a category list whose tags are all non-empty, free of commas and
without white space at either end, the edit handler's normalisation (split on
the comma, trim each token, drop the empty tokens) of the form's default
value, the tags joined by a comma and a space, gives back the list itself,
the empty list included; so a submission that leaves the categories input at
its default value and reaches the update mutation sends the categories of the
loaded event unchanged. -/
theorem EventPage.parseCategories_categoriesDefaultValue (categories : List JSString)
    (hclean : ∀ tag ∈ categories, CleanTag tag) :
    EventPage.parseCategories (EventPage.categoriesDefaultValue categories) = categories ∧
    ∀ (dateParse : JSString → Option Int) (toISOString : Int → JSString) (event : Event)
      (formData : EventPage.FormData) (updatedEvent : Event),
      event.categories = categories →
      formData.categories = EventPage.categoriesDefaultValue event.categories →
      EventPage.handleSubmit dateParse toISOString event formData =
        EventPage.Outcome.mutate updatedEvent →
      updatedEvent.categories = event.categories := by
  suffices hparse : EventPage.parseCategories
      (EventPage.categoriesDefaultValue categories) = categories by
    refine ⟨hparse, ?_⟩
    intro dateParse toISOString event formData updatedEvent hcats hdefault hrun
    rw [EventPage.categories_of_mutate dateParse toISOString event formData updatedEvent
      hrun, hdefault, hcats, hparse]
  cases categories with
  | nil => decide
  | cons first rest =>
    have hcomma : ∀ tag ∈ first :: rest, ',' ∉ tag := fun tag htag => (hclean tag htag).2.1
    have htrimmed : ∀ tail : List JSString, (∀ tag ∈ tail, CleanTag tag) →
        (tail.map (fun tag => ' ' :: tag)).map JS.trim = tail := by
      intro tail htail
      induction tail with
      | nil => rfl
      | cons tag tail ih =>
        have hc := htail tag (List.mem_cons_self _ _)
        simp only [List.map_cons, (JS.trim_of_clean tag hc.2.2.1 hc.2.2.2).2,
          ih (fun t ht => htail t (List.mem_cons_of_mem _ ht))]
    have hfirst := hclean first (List.mem_cons_self _ _)
    unfold EventPage.parseCategories EventPage.categoriesDefaultValue
    rw [JS.split_join_comma_space first rest hcomma, List.map_cons,
      (JS.trim_of_clean first hfirst.2.2.1 hfirst.2.2.2).1,
      htrimmed rest (fun t ht => hclean t (List.mem_cons_of_mem _ ht))]
    rw [List.filter_eq_self]
    intro tag htag
    have hne := (hclean tag htag).1
    cases tag with
    | nil => exact absurd rfl hne
    | cons c cs => rfl

theorem EventPage.parseCategories_categoriesDefaultValue_witness :
    (∀ tag ∈ Sample.jazzNight.categories, CleanTag tag) ∧
    EventPage.categoriesDefaultValue Sample.jazzNight.categories = "Music, Arts".toList ∧
    EventPage.parseCategories (EventPage.categoriesDefaultValue Sample.jazzNight.categories) =
      Sample.jazzNight.categories :=
  have hclean : ∀ tag ∈ Sample.jazzNight.categories, CleanTag tag := by
    unfold CleanTag
    decide
  ⟨hclean, by decide,
    (EventPage.parseCategories_categoriesDefaultValue Sample.jazzNight.categories hclean).1⟩
